import Mathlib

/-!
Verification of the gist retrieval-and-presentation pipeline of the
gist-viewer repository (src/assets/js/Gists.js), shallowly embedded in
Lean 4.  JavaScript strings are modelled as lists of natural numbers
(their UTF-8 bytes); JSON values relevant to the component are modelled
by an explicit inductive type; the Vue component state (props plus the
fields returned by data()) is a structure, and the asynchronous render
method is modelled as a state transformer parametrised by the outcome of
the single network request it performs.
-/

namespace GistViewer

/-- Bytes of an ASCII string literal (code points, which for the ASCII
literals appearing in Gists.js coincide with UTF-8 bytes). -/
def strBytes (s : String) : List Nat :=
  s.data.map Char.toNat

/-- Decimal digits (as bytes) of a natural number, fuel-driven helper.
Models the template-literal stringification of an integer in JS. -/
def natBytesAux : Nat → Nat → List Nat
  | 0, _ => []
  | fuel + 1, n =>
    if n < 10 then [48 + n]
    else natBytesAux fuel (n / 10) ++ [48 + n % 10]

/-- Decimal representation (as bytes) of a natural number. -/
def natBytes (n : Nat) : List Nat := natBytesAux (n + 1) n

/-- leadsWith p l is true when the list l starts with the pattern p. -/
def leadsWith : List Nat → List Nat → Bool
  | [], _ => true
  | _ :: _, [] => false
  | p :: ps, c :: cs => p = c && leadsWith ps cs

/-- containsSub l p is true when p occurs contiguously inside l
(the model of JavaScript String.prototype.includes). -/
def containsSub : List Nat → List Nat → Bool
  | [], p => leadsWith p []
  | c :: t, p => leadsWith p (c :: t) || containsSub t p

theorem leadsWith_append_self (p b : List Nat) : leadsWith p (p ++ b) = true := by
  induction p with
  | nil => rfl
  | cons x xs ih => simp [leadsWith, ih]

theorem containsSub_nil_pat (l : List Nat) : containsSub l [] = true := by
  cases l <;> simp [containsSub, leadsWith]

theorem containsSub_spot (a p b : List Nat) : containsSub (a ++ p ++ b) p = true := by
  induction a with
  | nil =>
    simp only [List.nil_append]
    cases p with
    | nil => simpa using containsSub_nil_pat b
    | cons x xs =>
      have h := leadsWith_append_self (x :: xs) b
      simp only [List.cons_append] at h
      simp [containsSub, h]
  | cons c t ih =>
    simp only [List.cons_append, containsSub, Bool.or_eq_true]
    exact Or.inr (by simpa [List.append_assoc] using ih)

theorem leadsWith_exists {p l : List Nat} (h : leadsWith p l = true) :
    ∃ b, l = p ++ b := by
  induction p generalizing l with
  | nil => exact ⟨l, rfl⟩
  | cons x xs ih =>
    cases l with
    | nil => simp [leadsWith] at h
    | cons c cs =>
      simp only [leadsWith, Bool.and_eq_true, decide_eq_true_eq] at h
      obtain ⟨b, hb⟩ := ih h.2
      exact ⟨b, by simp [h.1, hb]⟩

theorem containsSub_exists {l p : List Nat} (h : containsSub l p = true) :
    ∃ a b, l = a ++ p ++ b := by
  induction l with
  | nil =>
    simp only [containsSub] at h
    obtain ⟨b, hb⟩ := leadsWith_exists h
    cases p with
    | nil => exact ⟨[], [], by simp⟩
    | cons x xs => simp at hb
  | cons c t ih =>
    simp only [containsSub, Bool.or_eq_true] at h
    cases h with
    | inl h =>
      obtain ⟨b, hb⟩ := leadsWith_exists h
      exact ⟨[], b, by simp [hb]⟩
    | inr h =>
      obtain ⟨a, b, hab⟩ := ih h
      exact ⟨c :: a, b, by simp [hab]⟩

theorem mem_of_containsSub {l p : List Nat} {x : Nat}
    (h : containsSub l p = true) (hx : x ∈ p) : x ∈ l := by
  obtain ⟨a, b, hab⟩ := containsSub_exists h
  subst hab
  simp [hx]

theorem containsSub_eq_false_of_not_mem {l p : List Nat} {x : Nat}
    (hx : x ∈ p) (hl : x ∉ l) : containsSub l p = false := by
  cases h : containsSub l p with
  | false => rfl
  | true => exact absurd (mem_of_containsSub h hx) hl

/-! ## URL builder (function gistsApiUrl, Gists.js lines 17-24) -/

/-- Characters that encodeURIComponent leaves unescaped:
A-Z a-z 0-9 - _ . ! ~ * apostrophe ( ). -/
def isUnreservedByte (c : Nat) : Bool :=
  (48 ≤ c && c ≤ 57) || (65 ≤ c && c ≤ 90) || (97 ≤ c && c ≤ 122) ||
  c = 45 || c = 95 || c = 46 || c = 33 || c = 126 || c = 42 ||
  c = 39 || c = 40 || c = 41

/-- Uppercase hexadecimal digit byte for a value below 16. -/
def hexDigitByte (n : Nat) : Nat :=
  if n < 10 then 48 + n else 55 + n

/-- Model of JavaScript encodeURIComponent over the UTF-8 bytes of a
string: unreserved bytes pass through, every other byte becomes a
percent escape of two uppercase hexadecimal digits. -/
def encodeURIComponent : List Nat → List Nat
  | [] => []
  | c :: rest =>
    (if isUnreservedByte c then [c]
     else [37, hexDigitByte (c / 16), hexDigitByte (c % 16)]) ++
    encodeURIComponent rest

/-- Value of a hexadecimal digit byte, if it is one. -/
def hexVal (c : Nat) : Option Nat :=
  if 48 ≤ c && c ≤ 57 then some (c - 48)
  else if 65 ≤ c && c ≤ 70 then some (c - 55)
  else if 97 ≤ c && c ≤ 102 then some (c - 87)
  else none

/-- Model of decodeURIComponent at the byte level: percent escapes are
turned back into bytes, everything else passes through; a malformed
escape yields none (decodeURIComponent throws URIError). -/
def decodePercent : List Nat → Option (List Nat)
  | [] => some []
  | c :: rest =>
    if c = 37 then
      match rest with
      | h1 :: h2 :: rest2 =>
        match hexVal h1, hexVal h2 with
        | some a, some b => (decodePercent rest2).map (fun r => (16 * a + b) :: r)
        | _, _ => none
      | _ => none
    else (decodePercent rest).map (fun r => c :: r)

/-- Embedding of function gistsApiUrl (Gists.js lines 17-24).  The JS
truthiness test if (sinceDate) treats both null (none) and the empty
string as absent. -/
def gistsApiUrl (username : List Nat) (limit : Nat)
    (sinceDate : Option (List Nat)) : List Nat :=
  let url := strBytes "https://api.github.com/users/" ++ username ++
    strBytes "/gists?per_page=" ++ natBytes limit
  match sinceDate with
  | none => url
  | some s =>
    if s = [] then url
    else url ++ strBytes "&since=" ++ encodeURIComponent s

theorem hexVal_hexDigitByte {n : Nat} (h : n < 16) :
    hexVal (hexDigitByte n) = some n := by
  interval_cases n <;> rfl

theorem isUnreservedByte_ne_37 {c : Nat} (h : isUnreservedByte c = true) :
    c ≠ 37 := by
  intro he
  subst he
  simp [isUnreservedByte] at h

theorem decodePercent_cons {c : Nat} (l : List Nat) (h : ¬ c = 37) :
    decodePercent (c :: l) = (decodePercent l).map (fun r => c :: r) := by
  rw [decodePercent.eq_def]
  simp [h]

theorem decodePercent_escape (h1 h2 : Nat) (l : List Nat) {a b : Nat}
    (ha : hexVal h1 = some a) (hb : hexVal h2 = some b) :
    decodePercent (37 :: h1 :: h2 :: l) =
      (decodePercent l).map (fun r => (16 * a + b) :: r) := by
  rw [decodePercent.eq_def]
  simp [ha, hb]

/-- Percent decoding is a left inverse of percent encoding on byte
strings. -/
theorem decodePercent_encodeURIComponent (s : List Nat)
    (hs : ∀ c ∈ s, c < 256) : decodePercent (encodeURIComponent s) = some s := by
  induction s with
  | nil => rfl
  | cons c rest ih =>
    have hc : c < 256 := hs c (by simp)
    have hrest : ∀ x ∈ rest, x < 256 := fun x hx => hs x (by simp [hx])
    by_cases hu : isUnreservedByte c = true
    · have hne : ¬ c = 37 := isUnreservedByte_ne_37 hu
      simp [encodeURIComponent, hu, decodePercent_cons _ hne, ih hrest]
    · have hdiv : c / 16 < 16 := by omega
      have hmod : c % 16 < 16 := by omega
      rw [show encodeURIComponent (c :: rest) =
          37 :: hexDigitByte (c / 16) :: hexDigitByte (c % 16) ::
            encodeURIComponent rest by simp [encodeURIComponent, hu]]
      rw [decodePercent_escape _ _ _ (hexVal_hexDigitByte hdiv)
        (hexVal_hexDigitByte hmod), ih hrest]
      simp
      omega

/-! ## Timestamps (model of new Date(...) on ISO-8601 UTC strings) -/

/-- Value of a decimal digit byte, if it is one. -/
def digVal (c : Nat) : Option Nat :=
  if 48 ≤ c && c ≤ 57 then some (c - 48) else none

/-- Days from the Unix epoch to the given civil date (standard
days-from-civil computation), for year at least 1. -/
def epochDays (y m d : Nat) : Int :=
  let yy := if m ≤ 2 then y - 1 else y
  let era := yy / 400
  let yoe := yy % 400
  let doy := (153 * (if m > 2 then m - 3 else m + 9) + 2) / 5 + d - 1
  let doe := yoe * 365 + yoe / 4 - yoe / 100 + doy
  (era * 146097 + doe : Int) - 719468

/-- Model of new Date(s).getTime() for strings of the exact shape
YYYY-MM-DDTHH:MM:SSZ (the format the component documents for its
timestamps); none models an invalid date (NaN).  Out-of-range day
numbers for short months are not rejected here, which only widens the
set of strings counted as valid. -/
def parseIsoInstant (s : List Nat) : Option Int :=
  match s with
  | [y1, y2, y3, y4, 45, m1, m2, 45, d1, d2, 84,
     h1, h2, 58, n1, n2, 58, c1, c2, 90] =>
    match digVal y1, digVal y2, digVal y3, digVal y4, digVal m1, digVal m2,
      digVal d1, digVal d2, digVal h1, digVal h2, digVal n1, digVal n2,
      digVal c1, digVal c2 with
    | some a1, some a2, some a3, some a4, some b1, some b2, some e1, some e2,
      some f1, some f2, some g1, some g2, some k1, some k2 =>
      let y := ((a1 * 10 + a2) * 10 + a3) * 10 + a4
      let mo := b1 * 10 + b2
      let d := e1 * 10 + e2
      let h := f1 * 10 + f2
      let mi := g1 * 10 + g2
      let sec := k1 * 10 + k2
      if 1 ≤ y && 1 ≤ mo && mo ≤ 12 && 1 ≤ d && d ≤ 31 &&
         h ≤ 23 && mi ≤ 59 && sec ≤ 59 then
        some ((epochDays y mo d * 86400 + (h * 3600 + mi * 60 + sec)) * 1000)
      else none
    | _, _, _, _, _, _, _, _, _, _, _, _, _, _ => none
  | _ => none

/-! ## JSON values and gist objects -/

/-- A gist object as delivered by the API (the fields the component
reads).  description is a string or null. -/
structure Gist where
  id : List Nat
  description : Option (List Nat)
  html_url : List Nat
  updated_at : List Nat
  created_at : List Nat
  deriving DecidableEq

/-- JSON/JavaScript values as far as the component distinguishes them: a
fetched body is either an array of gist objects or some other value
(string, number, null, boolean, plain object), and a gist description
reaches the filter predicate as an arbitrary value. -/
inductive JSVal where
  | str (s : List Nat)
  | num (n : Int)
  | nullv
  | undef
  | boolv (b : Bool)
  | arr (elems : List Gist)
  | obj
  deriving DecidableEq

/-- JavaScript truthiness for the modelled values. -/
def jsTruthy : JSVal → Bool
  | .str s => !s.isEmpty
  | .num n => !(n = 0)
  | .nullv => false
  | .undef => false
  | .boolv b => b
  | .arr _ => true
  | .obj => true

/-- The value of gist.description as a JavaScript value. -/
def descVal : Option (List Nat) → JSVal
  | some s => .str s
  | none => .nullv

/-- ASCII lower-casing of one byte (model of toLowerCase on the ASCII
strings involved). -/
def toLowerByte (c : Nat) : Nat :=
  if 65 ≤ c && c ≤ 90 then c + 32 else c

/-- Lower-casing of a byte string. -/
def lowerStr (s : List Nat) : List Nat := s.map toLowerByte

/-- Embedding of Gists.methods.contains (Gists.js lines 96-107): the
filter predicate.  Total by construction, which models that the JS
function never throws. -/
def contains (value : JSVal) (filter : List Nat) : Bool :=
  if filter = [] then true
  else
    let description := if jsTruthy value then value else .str []
    match description with
    | .str s => containsSub (lowerStr s) (lowerStr filter)
    | _ => false

/-! ## Sorting (Gists.js lines 73-80) -/

/-- Sort key of a gist: the instant of its updated_at field, as compared
by the comparator new Date(b.updated_at) - new Date(a.updated_at).  An
invalid date gives NaN, for which the JS sort order is not specified;
the model maps it to 0, and every claim about the sort restricts to
valid dates. -/
def gistSortKey (g : Gist) : Int :=
  (parseIsoInstant g.updated_at).getD 0

/-- Insert a gist into a list sorted descending by key, after every
element with a key at least as large (the placement a stable sort gives
the comparator of the source). -/
def insertDesc (x : Gist) : List Gist → List Gist
  | [] => [x]
  | y :: ys =>
    if gistSortKey x ≤ gistSortKey y then y :: insertDesc x ys
    else x :: y :: ys

/-- Model of fetchedGists.sort with the comparator of the source: a
stable sort descending by updated_at, realised as left-to-right
insertion. -/
def sortGists (l : List Gist) : List Gist :=
  l.foldl (fun acc x => insertDesc x acc) []

/-- Descending sortedness by the comparator of the source. -/
def SortedDesc (l : List Gist) : Prop :=
  l.Pairwise (fun a b => gistSortKey b ≤ gistSortKey a)

/-! ## Fetch model (requestJson, Gists.js lines 26-36) -/

/-- A thrown JavaScript error: its name and message.  Template-literal
interpolation of an error produces name, a colon and a space, and the
message. -/
structure JSError where
  name : List Nat
  message : List Nat
  deriving DecidableEq

/-- String conversion of an error, as produced by a template literal. -/
def errToString (e : JSError) : List Nat :=
  e.name ++ strBytes ": " ++ e.message

/-- An HTTP response as the component observes it: status, status text,
body as text, and the result of resp.json() on the body (an engine
SyntaxError when the body is malformed JSON). -/
structure HttpResponse where
  status : Nat
  statusText : List Nat
  bodyText : List Nat
  bodyJson : Except JSError JSVal

/-- resp.ok of the Fetch API: status in the 200-299 range. -/
def respOk (r : HttpResponse) : Bool :=
  200 ≤ r.status && r.status ≤ 299

/-- Outcome of the single fetch(url) call: a transport-level rejection
(for example a TypeError from a network failure) or an HTTP response. -/
inductive FetchOutcome where
  | netFail (e : JSError)
  | gotResponse (resp : HttpResponse)

/-- Message of the error thrown by requestJson on a non-ok response
(Gists.js lines 31-33). -/
def httpErrorMessage (status : Nat) (statusText url body : List Nat) : List Nat :=
  strBytes "HTTP error: " ++ natBytes status ++ strBytes " - " ++ statusText ++
  strBytes ". URL: " ++ url ++ strBytes ". Response: " ++ body

/-- Embedding of requestJson (Gists.js lines 26-36) applied to a
received response: on a non-ok status it throws an Error carrying the
status, status text, URL and body text; otherwise it returns the parsed
JSON body, propagating a parse failure. -/
def requestJson (url : List Nat) (resp : HttpResponse) : Except JSError JSVal :=
  if respOk resp then resp.bodyJson
  else .error ⟨strBytes "Error",
    httpErrorMessage resp.status resp.statusText url resp.bodyText⟩

/-- Result of await requestJson(url) for a given fetch outcome. -/
def requestJsonResult (url : List Nat) : FetchOutcome → Except JSError JSVal
  | .netFail e => .error e
  | .gotResponse r => requestJson url r

/-! ## Component state and the render method (Gists.js lines 38-111) -/

/-- The component state: the two props (username, filter) and the fields
returned by data() (Gists.js lines 40-55). -/
structure GistsData where
  username : List Nat
  filter : List Nat
  gists : Option (List Gist)
  loading : Bool
  errored : Bool
  errorMsg : List Nat
  sinceDateThreshold : List Nat
  deriving DecidableEq

/-- The state right after data() runs, for given props. -/
def initialData (username filter : List Nat) : GistsData :=
  { username := username
    filter := filter
    gists := none
    loading := true
    errored := false
    errorMsg := []
    sinceDateThreshold := strBytes "2022-01-01T00:00:00Z" }

/-- The synchronous opening of render (Gists.js lines 64-66): loading is
set, the errored flag is reset and the stored gists are cleared.  The
errorMsg field is not touched by these lines. -/
def startFetch (s : GistsData) : GistsData :=
  { s with loading := true, errored := false, gists := none }

/-- The URL render builds (Gists.js line 61). -/
def renderUrl (s : GistsData) : List Nat :=
  gistsApiUrl s.username 100 (some s.sinceDateThreshold)

/-- The TypeError raised by fetchedGists.sort(...) when the parsed body
has no sort method (message as produced by V8). -/
def sortTypeError : JSError :=
  ⟨strBytes "TypeError", strBytes "fetchedGists.sort is not a function"⟩

/-- The catch block of render (Gists.js lines 84-89) followed by the
finally block: gists cleared, errored set, message embedding the failure,
loading cleared. -/
def errorCatch (s : GistsData) (e : JSError) : GistsData :=
  { s with gists := none
           errored := true
           errorMsg := strBytes "Unable to fetch Gists API data. Error: " ++
             errToString e
           loading := false }

/-- Embedding of the async render method (Gists.js lines 59-93) as a
state transformer over the outcome of its one network request: the
synchronous opening, then either the sort-and-store path (when the body
parsed to an array), or the catch path for a thrown failure, and in
either case the finally block clearing loading. -/
def render (s : GistsData) (o : FetchOutcome) : GistsData :=
  let s1 := startFetch s
  match requestJsonResult (renderUrl s) o with
  | .error e => errorCatch s1 e
  | .ok v =>
    match v with
    | .arr gs => { s1 with gists := some (sortGists gs), loading := false }
    | _ => errorCatch s1 sortTypeError

/-- The failure a render cycle runs into for a given outcome, if any:
transport rejection, non-ok HTTP status, malformed JSON body, or a body
without a sort method. -/
def failureOf (url : List Nat) : FetchOutcome → Option JSError
  | .netFail e => some e
  | .gotResponse r =>
    if respOk r then
      match r.bodyJson with
      | .error e => some e
      | .ok (.arr _) => none
      | .ok _ => some sortTypeError
    else some ⟨strBytes "Error",
      httpErrorMessage r.status r.statusText url r.bodyText⟩

/-- States the component can be in: freshly created, mid-flight after
the synchronous opening of render, or after a completed render cycle. -/
inductive Reachable : GistsData → Prop where
  | init : ∀ u f, Reachable (initialData u f)
  | start : ∀ s, Reachable s → Reachable (startFetch s)
  | cycle : ∀ s o, Reachable s → Reachable (render s o)

/-! ## Empty-state notice of the template (Gists.js lines 178-185) -/

/-- Which of the two empty-state paragraphs the template renders: the
one for an empty filter result, the one for an empty gist list, or
neither. -/
inductive EmptyNotice where
  | filterNotice
  | noGistsNotice
  | nothing
  deriving DecidableEq

/-- Embedding of the two paragraph conditions at Gists.js lines 179 and
183: a v-if showing the filter-criteria message, and a v-else-if (only
evaluated when the first is false) showing the no-gists message. -/
def emptyNotice (s : GistsData) : EmptyNotice :=
  match s.gists with
  | some gs =>
    if !s.loading &&
       (gs.filter (fun g => contains (descVal g.description) s.filter)).length = 0
    then .filterNotice
    else if !s.loading && gs.length = 0 then .noGistsNotice
    else .nothing
  | none => .nothing

/-! ## Lemmas about the sort -/

theorem mem_insertDesc {z x : Gist} :
    ∀ {l : List Gist}, z ∈ insertDesc x l → z = x ∨ z ∈ l := by
  intro l
  induction l with
  | nil =>
    intro h
    simp [insertDesc] at h
    exact Or.inl h
  | cons y ys ih =>
    intro h
    simp only [insertDesc] at h
    split at h
    · rcases List.mem_cons.mp h with h1 | h2
      · exact Or.inr (by simp [h1])
      · rcases ih h2 with h3 | h4
        · exact Or.inl h3
        · exact Or.inr (by simp [h4])
    · rcases List.mem_cons.mp h with h1 | h2
      · exact Or.inl h1
      · exact Or.inr h2

theorem insertDesc_sorted {x : Gist} :
    ∀ {l : List Gist}, SortedDesc l → SortedDesc (insertDesc x l) := by
  intro l
  induction l with
  | nil =>
    intro _
    simp [insertDesc, SortedDesc]
  | cons y ys ih =>
    intro h
    rcases List.pairwise_cons.mp h with ⟨hy, hys⟩
    simp only [insertDesc]
    split
    case isTrue hle =>
      refine List.pairwise_cons.mpr ⟨?_, ih hys⟩
      intro z hz
      rcases mem_insertDesc hz with rfl | hz2
      · exact hle
      · exact hy z hz2
    case isFalse hgt =>
      refine List.pairwise_cons.mpr ⟨?_, h⟩
      intro z hz
      rcases List.mem_cons.mp hz with rfl | hz2
      · omega
      · have := hy z hz2
        omega

theorem foldl_insertDesc_sorted :
    ∀ (l acc : List Gist), SortedDesc acc →
      SortedDesc (l.foldl (fun acc x => insertDesc x acc) acc) := by
  intro l
  induction l with
  | nil =>
    intro acc h
    simpa using h
  | cons x xs ih =>
    intro acc h
    simp only [List.foldl_cons]
    exact ih _ (insertDesc_sorted h)

theorem sortGists_sorted (l : List Gist) : SortedDesc (sortGists l) :=
  foldl_insertDesc_sorted l [] (by simp [SortedDesc])

theorem insertDesc_append {x : Gist} :
    ∀ {acc : List Gist}, (∀ y ∈ acc, gistSortKey x ≤ gistSortKey y) →
      insertDesc x acc = acc ++ [x] := by
  intro acc
  induction acc with
  | nil =>
    intro _
    rfl
  | cons y ys ih =>
    intro h
    have hy : gistSortKey x ≤ gistSortKey y := h y (by simp)
    simp only [insertDesc]
    rw [if_pos hy, ih (fun z hz => h z (List.mem_cons_of_mem _ hz))]
    simp

theorem foldl_insertDesc_of_sorted :
    ∀ (l acc : List Gist), SortedDesc (acc ++ l) →
      l.foldl (fun acc x => insertDesc x acc) acc = acc ++ l := by
  intro l
  induction l with
  | nil =>
    intro acc _
    simp
  | cons x xs ih =>
    intro acc h
    have hx : ∀ y ∈ acc, gistSortKey x ≤ gistSortKey y := by
      intro y hy
      exact (List.pairwise_append.mp h).2.2 y hy x (by simp)
    simp only [List.foldl_cons]
    rw [insertDesc_append hx]
    have heq : (acc ++ [x]) ++ xs = acc ++ x :: xs := by simp
    have h2 : SortedDesc ((acc ++ [x]) ++ xs) := by
      rw [heq]
      exact h
    rw [ih (acc ++ [x]) h2, heq]

theorem sortGists_of_sorted {l : List Gist} (h : SortedDesc l) : sortGists l = l := by
  have := foldl_insertDesc_of_sorted l [] (by simpa using h)
  simpa [sortGists] using this

theorem sortGists_idem (l : List Gist) : sortGists (sortGists l) = sortGists l :=
  sortGists_of_sorted (sortGists_sorted l)

/-! ## Further substring helpers -/

theorem containsSub_of_eq (a p b : List Nat) {l : List Nat}
    (h : l = a ++ p ++ b) : containsSub l p = true := by
  rw [h]
  exact containsSub_spot a p b

theorem containsSub_nil_of_ne {p : List Nat} (h : p ≠ []) :
    containsSub [] p = false := by
  cases p with
  | nil => exact absurd rfl h
  | cons x xs => rfl

/-- The string a gist description contributes to the comparison, with
every non-string value contributing the empty string. -/
def descStr : JSVal → List Nat
  | .str s => s
  | _ => []

/-! ## Claim theorems -/

/-- C10: with no since timestamp, gistsApiUrl performs no encoding or
validation: the output is exactly the literal concatenation of the base
path, the username verbatim, the per_page fragment and the decimal
limit; in particular a username holding URL metacharacters is embedded
verbatim into the path and query, as the concrete instance shows. -/
theorem gistsApiUrl_verbatim (u : List Nat) (l : Nat) :
    gistsApiUrl u l none =
      strBytes "https://api.github.com/users/" ++ u ++
      strBytes "/gists?per_page=" ++ natBytes l ∧
    gistsApiUrl (strBytes "a/b?c&d e") 100 none =
      strBytes "https://api.github.com/users/a/b?c&d e/gists?per_page=100" := by
  constructor
  · rfl
  · decide

/-- C3: for every supplied (hence truthy, non-empty) timestamp string of
bytes, the built URL extends the timestamp-free URL with a since
parameter holding the percent-encoding of the timestamp, and percent
decoding gives back exactly the input. -/
theorem since_param_roundtrip (u : List Nat) (l : Nat) (ts : List Nat)
    (hne : ts ≠ []) (hbytes : ∀ c ∈ ts, c < 256) :
    gistsApiUrl u l (some ts) =
      gistsApiUrl u l none ++ strBytes "&since=" ++ encodeURIComponent ts ∧
    decodePercent (encodeURIComponent ts) = some ts := by
  constructor
  · simp [gistsApiUrl, hne]
  · exact decodePercent_encodeURIComponent ts hbytes

/-- Witness for C3 at the threshold timestamp of the component. -/
theorem since_param_roundtrip_witness :
    strBytes "2022-01-01T00:00:00Z" ≠ ([] : List Nat) ∧
    (∀ c ∈ strBytes "2022-01-01T00:00:00Z", c < 256) ∧
    (gistsApiUrl (strBytes "deadflowers") 100
        (some (strBytes "2022-01-01T00:00:00Z")) =
      gistsApiUrl (strBytes "deadflowers") 100 none ++ strBytes "&since=" ++
        encodeURIComponent (strBytes "2022-01-01T00:00:00Z") ∧
     decodePercent (encodeURIComponent (strBytes "2022-01-01T00:00:00Z")) =
       some (strBytes "2022-01-01T00:00:00Z")) :=
  ⟨by decide, by decide,
    since_param_roundtrip (strBytes "deadflowers") 100
      (strBytes "2022-01-01T00:00:00Z") (by decide) (by decide)⟩

/-- C4: the filter predicate contains agrees, for every JavaScript value
in description position and every filter string, with case-insensitive
substring containment over the description-as-string (non-string values
contributing the empty string), and the empty filter always matches.
The predicate is a total Lean function, which models that the JS
function never throws. -/
theorem contains_spec (v : JSVal) (f : List Nat) :
    contains v f = containsSub (lowerStr (descStr v)) (lowerStr f) ∧
    contains v [] = true := by
  refine ⟨?_, by simp [contains]⟩
  by_cases hf : f = []
  · subst hf
    simp [contains, lowerStr, containsSub_nil_pat]
  · have hlf : List.map toLowerByte f ≠ [] := by simpa using hf
    cases v with
    | str s =>
      cases s with
      | nil => simp [contains, hf, jsTruthy, descStr]
      | cons c cs => simp [contains, hf, jsTruthy, descStr]
    | num n =>
      by_cases hn : n = 0
      · subst hn
        simp [contains, hf, jsTruthy, descStr]
      · simp [contains, hf, jsTruthy, hn, descStr, lowerStr,
          containsSub_nil_of_ne hlf]
    | nullv => simp [contains, hf, jsTruthy, descStr]
    | undef => simp [contains, hf, jsTruthy, descStr]
    | boolv b =>
      cases b with
      | false => simp [contains, hf, jsTruthy, descStr]
      | true =>
        simp [contains, hf, jsTruthy, descStr, lowerStr,
          containsSub_nil_of_ne hlf]
    | arr es =>
      simp [contains, hf, jsTruthy, descStr, lowerStr,
        containsSub_nil_of_ne hlf]
    | obj =>
      simp [contains, hf, jsTruthy, descStr, lowerStr,
        containsSub_nil_of_ne hlf]

/-- C1 counterexample: after a failed cycle the stored error message is
the failure text, and the synchronous opening of the next render leaves
that text in place instead of clearing it. -/
theorem startFetch_keeps_old_errorMsg :
    (startFetch (render (initialData (strBytes "deadflowers") [])
        (.netFail ⟨strBytes "TypeError", strBytes "Failed to fetch"⟩))).errorMsg =
      strBytes "Unable to fetch Gists API data. Error: TypeError: Failed to fetch" ∧
    strBytes "Unable to fetch Gists API data. Error: TypeError: Failed to fetch" ≠
      ([] : List Nat) := by
  constructor
  · decide
  · decide

/-- C1 as amended: when a render cycle starts, the state becomes Loading,
the errored flag and the stored gist list are cleared, and the stored
error message string keeps its previous value (it is merely no longer
displayed, since errored is false). -/
theorem startFetch_state (s : GistsData) :
    (startFetch s).loading = true ∧ (startFetch s).errored = false ∧
    (startFetch s).gists = none ∧ (startFetch s).errorMsg = s.errorMsg :=
  ⟨rfl, rfl, rfl, rfl⟩

/-- C2: a successful fetch of the empty array leaves the component in
the Ready state with an empty stored list, but the template renders the
filter-criteria notice, not the no-gists notice: the v-if for an empty
filtered list is evaluated first and is true for the empty list, so the
v-else-if carrying the no-gists message is unreachable. -/
theorem empty_result_shows_filter_notice (u f stt bt : List Nat) :
    ((render (initialData u f)
        (.gotResponse ⟨200, stt, bt, .ok (.arr [])⟩)).loading = false ∧
     (render (initialData u f)
        (.gotResponse ⟨200, stt, bt, .ok (.arr [])⟩)).errored = false ∧
     (render (initialData u f)
        (.gotResponse ⟨200, stt, bt, .ok (.arr [])⟩)).gists = some [] ∧
     emptyNotice (render (initialData u f)
        (.gotResponse ⟨200, stt, bt, .ok (.arr [])⟩)) = .filterNotice) ∧
    EmptyNotice.filterNotice ≠ EmptyNotice.noGistsNotice :=
  ⟨⟨rfl, rfl, rfl, rfl⟩, by decide⟩

/-- C5: after a successful fetch whose body parsed to an array of gists
with valid updated_at timestamps, the stored gist list is the stable
descending sort of the response by updated_at, that list is sorted
descending, and sorting it again changes nothing. -/
theorem fetch_success_sorted (s : GistsData) (r : HttpResponse)
    (gs : List Gist) (hok : respOk r = true)
    (hbody : r.bodyJson = .ok (.arr gs))
    (hvalid : ∀ g ∈ gs, (parseIsoInstant g.updated_at).isSome = true) :
    (render s (.gotResponse r)).gists = some (sortGists gs) ∧
    SortedDesc (sortGists gs) ∧
    sortGists (sortGists gs) = sortGists gs := by
  refine ⟨?_, sortGists_sorted gs, sortGists_idem gs⟩
  simp [render, requestJsonResult, requestJson, hok, hbody, startFetch]

/-- First gist of the scenario in the specification. -/
def gistOne : Gist :=
  { id := strBytes "1"
    description := some (strBytes "Foo Bar")
    html_url := strBytes "https://gist.github.com/one"
    updated_at := strBytes "2023-01-02T00:00:00Z"
    created_at := strBytes "2023-01-01T00:00:00Z" }

/-- Second gist of the scenario in the specification. -/
def gistTwo : Gist :=
  { id := strBytes "2"
    description := some (strBytes "Baz")
    html_url := strBytes "https://gist.github.com/two"
    updated_at := strBytes "2023-05-01T00:00:00Z"
    created_at := strBytes "2023-04-01T00:00:00Z" }

/-- Witness for C5 on the two-gist scenario of the specification. -/
theorem fetch_success_sorted_witness :
    respOk ⟨200, [], [], .ok (.arr [gistOne, gistTwo])⟩ = true ∧
    (∀ g ∈ [gistOne, gistTwo], (parseIsoInstant g.updated_at).isSome = true) ∧
    ((render (initialData (strBytes "deadflowers") [])
        (.gotResponse ⟨200, [], [], .ok (.arr [gistOne, gistTwo])⟩)).gists =
      some (sortGists [gistOne, gistTwo]) ∧
     SortedDesc (sortGists [gistOne, gistTwo]) ∧
     sortGists (sortGists [gistOne, gistTwo]) = sortGists [gistOne, gistTwo]) :=
  ⟨by decide, by decide,
    fetch_success_sorted (initialData (strBytes "deadflowers") [])
      ⟨200, [], [], .ok (.arr [gistOne, gistTwo])⟩ [gistOne, gistTwo]
      (by decide) rfl (by decide)⟩

/-- C6: for every response with a non-success status, the cycle ends
Errored and the stored error message carries the status code, the status
text, the request URL and the response body text. -/
theorem http_error_message_fields (s : GistsData) (r : HttpResponse)
    (hbad : respOk r = false) :
    (render s (.gotResponse r)).errored = true ∧
    containsSub (render s (.gotResponse r)).errorMsg (natBytes r.status) = true ∧
    containsSub (render s (.gotResponse r)).errorMsg r.statusText = true ∧
    containsSub (render s (.gotResponse r)).errorMsg (renderUrl s) = true ∧
    containsSub (render s (.gotResponse r)).errorMsg r.bodyText = true := by
  have hmsg : (render s (.gotResponse r)).errorMsg =
      strBytes "Unable to fetch Gists API data. Error: " ++
      (strBytes "Error" ++ strBytes ": " ++
       (strBytes "HTTP error: " ++ natBytes r.status ++ strBytes " - " ++
        r.statusText ++ strBytes ". URL: " ++ renderUrl s ++
        strBytes ". Response: " ++ r.bodyText)) := by
    simp [render, requestJsonResult, requestJson, hbad, errorCatch,
      errToString, httpErrorMessage, startFetch]
  refine ⟨?_, ?_, ?_, ?_, ?_⟩
  · simp [render, requestJsonResult, requestJson, hbad, errorCatch]
  · rw [hmsg]
    exact containsSub_of_eq
      (strBytes "Unable to fetch Gists API data. Error: " ++ strBytes "Error" ++
        strBytes ": " ++ strBytes "HTTP error: ")
      (natBytes r.status)
      (strBytes " - " ++ r.statusText ++ strBytes ". URL: " ++ renderUrl s ++
        strBytes ". Response: " ++ r.bodyText)
      (by simp [List.append_assoc])
  · rw [hmsg]
    exact containsSub_of_eq
      (strBytes "Unable to fetch Gists API data. Error: " ++ strBytes "Error" ++
        strBytes ": " ++ strBytes "HTTP error: " ++ natBytes r.status ++
        strBytes " - ")
      r.statusText
      (strBytes ". URL: " ++ renderUrl s ++ strBytes ". Response: " ++ r.bodyText)
      (by simp [List.append_assoc])
  · rw [hmsg]
    exact containsSub_of_eq
      (strBytes "Unable to fetch Gists API data. Error: " ++ strBytes "Error" ++
        strBytes ": " ++ strBytes "HTTP error: " ++ natBytes r.status ++
        strBytes " - " ++ r.statusText ++ strBytes ". URL: ")
      (renderUrl s)
      (strBytes ". Response: " ++ r.bodyText)
      (by simp [List.append_assoc])
  · rw [hmsg]
    exact containsSub_of_eq
      (strBytes "Unable to fetch Gists API data. Error: " ++ strBytes "Error" ++
        strBytes ": " ++ strBytes "HTTP error: " ++ natBytes r.status ++
        strBytes " - " ++ r.statusText ++ strBytes ". URL: " ++ renderUrl s ++
        strBytes ". Response: ")
      r.bodyText
      []
      (by simp [List.append_assoc])

/-- Witness for C6: the 404 scenario with body Not Found of the
specification. -/
theorem http_error_message_fields_witness :
    respOk ⟨404, strBytes "Not Found", strBytes "Not Found",
      .error ⟨strBytes "SyntaxError", strBytes "Unexpected token"⟩⟩ = false ∧
    ((render (initialData (strBytes "deadflowers") [])
        (.gotResponse ⟨404, strBytes "Not Found", strBytes "Not Found",
          .error ⟨strBytes "SyntaxError", strBytes "Unexpected token"⟩⟩)).errored = true ∧
     containsSub (render (initialData (strBytes "deadflowers") [])
        (.gotResponse ⟨404, strBytes "Not Found", strBytes "Not Found",
          .error ⟨strBytes "SyntaxError", strBytes "Unexpected token"⟩⟩)).errorMsg
        (natBytes 404) = true ∧
     containsSub (render (initialData (strBytes "deadflowers") [])
        (.gotResponse ⟨404, strBytes "Not Found", strBytes "Not Found",
          .error ⟨strBytes "SyntaxError", strBytes "Unexpected token"⟩⟩)).errorMsg
        (strBytes "Not Found") = true ∧
     containsSub (render (initialData (strBytes "deadflowers") [])
        (.gotResponse ⟨404, strBytes "Not Found", strBytes "Not Found",
          .error ⟨strBytes "SyntaxError", strBytes "Unexpected token"⟩⟩)).errorMsg
        (renderUrl (initialData (strBytes "deadflowers") [])) = true ∧
     containsSub (render (initialData (strBytes "deadflowers") [])
        (.gotResponse ⟨404, strBytes "Not Found", strBytes "Not Found",
          .error ⟨strBytes "SyntaxError", strBytes "Unexpected token"⟩⟩)).errorMsg
        (strBytes "Not Found") = true) :=
  ⟨by decide,
    http_error_message_fields (initialData (strBytes "deadflowers") [])
      ⟨404, strBytes "Not Found", strBytes "Not Found",
        .error ⟨strBytes "SyntaxError", strBytes "Unexpected token"⟩⟩
      (by decide)⟩

/-- Does the value carry a sort method, as the in-place sort of render
requires?  Among JSON values only arrays do. -/
def hasSortMethod : JSVal → Bool
  | .arr _ => true
  | _ => false

/-- C9: a successful HTTP response whose JSON body is not an array makes
the in-place sort throw, and the same catch path as for fetch failures
leaves the component Errored, not loading, with no stored gists. -/
theorem nonarray_body_errors (s : GistsData) (r : HttpResponse) (v : JSVal)
    (hok : respOk r = true) (hbody : r.bodyJson = .ok v)
    (hns : hasSortMethod v = false) :
    (render s (.gotResponse r)).errored = true ∧
    (render s (.gotResponse r)).loading = false ∧
    (render s (.gotResponse r)).gists = none := by
  cases v with
  | arr gs => simp [hasSortMethod] at hns
  | str s2 => simp [render, requestJsonResult, requestJson, hok, hbody, errorCatch]
  | num n => simp [render, requestJsonResult, requestJson, hok, hbody, errorCatch]
  | nullv => simp [render, requestJsonResult, requestJson, hok, hbody, errorCatch]
  | undef => simp [render, requestJsonResult, requestJson, hok, hbody, errorCatch]
  | boolv b => simp [render, requestJsonResult, requestJson, hok, hbody, errorCatch]
  | obj => simp [render, requestJsonResult, requestJson, hok, hbody, errorCatch]

/-- Witness for C9: a 200 response whose body parsed to the number 123. -/
theorem nonarray_body_errors_witness :
    respOk ⟨200, strBytes "OK", strBytes "123", .ok (.num 123)⟩ = true ∧
    hasSortMethod (.num 123) = false ∧
    ((render (initialData (strBytes "deadflowers") [])
        (.gotResponse ⟨200, strBytes "OK", strBytes "123",
          .ok (.num 123)⟩)).errored = true ∧
     (render (initialData (strBytes "deadflowers") [])
        (.gotResponse ⟨200, strBytes "OK", strBytes "123",
          .ok (.num 123)⟩)).loading = false ∧
     (render (initialData (strBytes "deadflowers") [])
        (.gotResponse ⟨200, strBytes "OK", strBytes "123",
          .ok (.num 123)⟩)).gists = none) :=
  ⟨by decide, by decide,
    nonarray_body_errors (initialData (strBytes "deadflowers") [])
      ⟨200, strBytes "OK", strBytes "123", .ok (.num 123)⟩ (.num 123)
      (by decide) rfl (by decide)⟩

/-! ## Reachability invariant and failure path -/

theorem reachable_invariant {s : GistsData} (h : Reachable s) :
    s.errored = true → s.gists = none := by
  induction h with
  | init u f =>
    intro he
    simp [initialData] at he
  | start t ht ih =>
    intro _
    rfl
  | cycle t o ht ih =>
    intro he
    cases hr : requestJsonResult (renderUrl t) o with
    | error e => simp [render, hr, errorCatch]
    | ok v =>
      cases v with
      | arr gs =>
        exfalso
        simp [render, hr, startFetch] at he
      | str s2 => simp [render, hr, errorCatch]
      | num n => simp [render, hr, errorCatch]
      | nullv => simp [render, hr, errorCatch]
      | undef => simp [render, hr, errorCatch]
      | boolv b => simp [render, hr, errorCatch]
      | obj => simp [render, hr, errorCatch]

theorem render_failure {s : GistsData} {o : FetchOutcome} {e : JSError}
    (hf : failureOf (renderUrl s) o = some e) :
    render s o = errorCatch (startFetch s) e := by
  cases o with
  | netFail e2 =>
    simp only [failureOf, Option.some.injEq] at hf
    simp [render, requestJsonResult, hf]
  | gotResponse r =>
    by_cases hok : respOk r = true
    · cases hb : r.bodyJson with
      | error e2 =>
        simp [failureOf, hok, hb] at hf
        simp [render, requestJsonResult, requestJson, hok, hb, hf]
      | ok v =>
        cases v with
        | arr gs => simp [failureOf, hok, hb] at hf
        | str s2 =>
          simp [failureOf, hok, hb] at hf
          simp [render, requestJsonResult, requestJson, hok, hb, hf]
        | num n =>
          simp [failureOf, hok, hb] at hf
          simp [render, requestJsonResult, requestJson, hok, hb, hf]
        | nullv =>
          simp [failureOf, hok, hb] at hf
          simp [render, requestJsonResult, requestJson, hok, hb, hf]
        | undef =>
          simp [failureOf, hok, hb] at hf
          simp [render, requestJsonResult, requestJson, hok, hb, hf]
        | boolv b2 =>
          simp [failureOf, hok, hb] at hf
          simp [render, requestJsonResult, requestJson, hok, hb, hf]
        | obj =>
          simp [failureOf, hok, hb] at hf
          simp [render, requestJsonResult, requestJson, hok, hb, hf]
    · have hok2 : respOk r = false := by
        cases h2 : respOk r with
        | false => rfl
        | true => exact absurd h2 hok
      simp [failureOf, hok2] at hf
      simp [render, requestJsonResult, requestJson, hok2, ← hf]

/-- C7: in every reachable state, errored together with a stored gist
list is impossible; and whenever a cycle runs into a failure, the cycle
ends Errored with no gist list and an error message embedding the
failure description. -/
theorem errored_excludes_gists (s : GistsData) (hr : Reachable s)
    (o : FetchOutcome) (e : JSError)
    (hf : failureOf (renderUrl s) o = some e) :
    (s.errored = true → s.gists = none) ∧
    (render s o).errored = true ∧ (render s o).gists = none ∧
    containsSub (render s o).errorMsg (errToString e) = true := by
  refine ⟨reachable_invariant hr, ?_, ?_, ?_⟩
  · rw [render_failure hf]
    rfl
  · rw [render_failure hf]
    rfl
  · rw [render_failure hf]
    exact containsSub_of_eq
      (strBytes "Unable to fetch Gists API data. Error: ")
      (errToString e) []
      (by simp [errorCatch])

/-- Witness for C7 at the freshly mounted state and a transport-level
rejection. -/
theorem errored_excludes_gists_witness :
    Reachable (initialData (strBytes "deadflowers") []) ∧
    failureOf (renderUrl (initialData (strBytes "deadflowers") []))
      (.netFail ⟨strBytes "TypeError", strBytes "Failed to fetch"⟩) =
      some ⟨strBytes "TypeError", strBytes "Failed to fetch"⟩ ∧
    (((initialData (strBytes "deadflowers") []).errored = true →
        (initialData (strBytes "deadflowers") []).gists = none) ∧
     (render (initialData (strBytes "deadflowers") [])
        (.netFail ⟨strBytes "TypeError", strBytes "Failed to fetch"⟩)).errored = true ∧
     (render (initialData (strBytes "deadflowers") [])
        (.netFail ⟨strBytes "TypeError", strBytes "Failed to fetch"⟩)).gists = none ∧
     containsSub (render (initialData (strBytes "deadflowers") [])
        (.netFail ⟨strBytes "TypeError", strBytes "Failed to fetch"⟩)).errorMsg
       (errToString ⟨strBytes "TypeError", strBytes "Failed to fetch"⟩) = true) :=
  ⟨Reachable.init (strBytes "deadflowers") [], rfl,
    errored_excludes_gists (initialData (strBytes "deadflowers") [])
      (Reachable.init (strBytes "deadflowers") [])
      (.netFail ⟨strBytes "TypeError", strBytes "Failed to fetch"⟩)
      ⟨strBytes "TypeError", strBytes "Failed to fetch"⟩ rfl⟩

/-! ## Username validity and absence of a since parameter -/

/-- Bytes a valid GitHub username may hold: ASCII letters, digits and
the hyphen. -/
def isUsernameByte (c : Nat) : Bool :=
  (48 ≤ c && c ≤ 57) || (65 ≤ c && c ≤ 90) || (97 ≤ c && c ≤ 122) || c = 45

/-- A valid username: non-empty and made of username bytes. -/
def validUsername (u : List Nat) : Bool :=
  !u.isEmpty && u.all isUsernameByte

theorem natBytesAux_digits :
    ∀ (fuel n : Nat), ∀ c ∈ natBytesAux fuel n, 48 ≤ c ∧ c ≤ 57 := by
  intro fuel
  induction fuel with
  | zero =>
    intro n c hc
    simp [natBytesAux] at hc
  | succ f ih =>
    intro n c hc
    simp only [natBytesAux] at hc
    split at hc
    · simp at hc
      omega
    · rcases List.mem_append.mp hc with h1 | h2
      · exact ih _ c h1
      · simp at h2
        omega

theorem natBytes_digits (n : Nat) : ∀ c ∈ natBytes n, 48 ≤ c ∧ c ≤ 57 :=
  natBytesAux_digits (n + 1) n

/-- If the pattern occurring at some position starts right at an
occurrence of a byte c that the left part A does not hold, then either
the occurrence position is exactly after A, or c occurs again further
right. -/
theorem occurrence_split {c : Nat} :
    ∀ (A a B r : List Nat), a ++ c :: r = A ++ c :: B → c ∉ A →
      (a = A ∧ r = B) ∨ c ∈ B := by
  intro A
  induction A with
  | nil =>
    intro a B r h _
    cases a with
    | nil =>
      left
      simpa using h
    | cons y a2 =>
      right
      simp only [List.cons_append, List.nil_append, List.cons.injEq] at h
      rw [← h.2]
      simp
  | cons x A2 ih =>
    intro a B r h hc
    cases a with
    | nil =>
      exfalso
      simp only [List.nil_append, List.cons_append, List.cons.injEq] at h
      exact hc (h.1 ▸ List.mem_cons_self x A2)
    | cons y a2 =>
      simp only [List.cons_append, List.cons.injEq] at h
      have hrec := ih a2 B r h.2 (fun hm => hc (List.mem_cons_of_mem x hm))
      rcases hrec with ⟨ha, hrr⟩ | hB
      · exact Or.inl ⟨by simp [h.1, ha], hrr⟩
      · exact Or.inr hB

/-- C8: for every valid username and limit in the allowed range, the
built URL (with no timestamp) holds a per_page parameter equal to the
limit, and holds no since parameter: neither an ampersand-introduced nor
a question-mark-introduced since key occurs anywhere in it. -/
theorem url_per_page_no_since (u : List Nat) (l : Nat)
    (hu : validUsername u = true) (hl1 : 1 ≤ l) (hl2 : l ≤ 100) :
    containsSub (gistsApiUrl u l none)
      (strBytes "per_page=" ++ natBytes l) = true ∧
    containsSub (gistsApiUrl u l none) (strBytes "&since=") = false ∧
    containsSub (gistsApiUrl u l none) (strBytes "?since=") = false := by
  have huall : ∀ c ∈ u, isUsernameByte c = true := by
    intro c hc
    have := (Bool.and_eq_true _ _).mp hu
    exact List.all_eq_true.mp this.2 c hc
  have husername : ∀ c ∈ u, (48 ≤ c ∧ c ≤ 57) ∨ (65 ≤ c ∧ c ≤ 90) ∨
      (97 ≤ c ∧ c ≤ 122) ∨ c = 45 := by
    intro c hc
    have h := huall c hc
    simp [isUsernameByte] at h
    omega
  refine ⟨?_, ?_, ?_⟩
  · have hlit : strBytes "/gists?per_page=" =
        strBytes "/gists?" ++ strBytes "per_page=" := by decide
    refine containsSub_of_eq
      (strBytes "https://api.github.com/users/" ++ u ++ strBytes "/gists?")
      (strBytes "per_page=" ++ natBytes l) [] ?_
    simp [gistsApiUrl, hlit, List.append_assoc]
  · have h38 : (38 : Nat) ∉ gistsApiUrl u l none := by
      intro h
      simp only [gistsApiUrl, List.mem_append] at h
      rcases h with ((h1 | h2) | h3) | h4
      · revert h1
        decide
      · have := husername 38 h2
        omega
      · revert h3
        decide
      · have := natBytes_digits l 38 h4
        omega
    exact containsSub_eq_false_of_not_mem (x := 38) (by decide) h38
  · cases hcs : containsSub (gistsApiUrl u l none) (strBytes "?since=") with
    | false => rfl
    | true =>
      exfalso
      obtain ⟨a, b, hab⟩ := containsSub_exists hcs
      have hpat : strBytes "?since=" = 63 :: strBytes "since=" := by decide
      have hurl : gistsApiUrl u l none =
          (strBytes "https://api.github.com/users/" ++ u ++ strBytes "/gists") ++
          63 :: (strBytes "per_page=" ++ natBytes l) := by
        have hlit2 : strBytes "/gists?per_page=" =
            strBytes "/gists" ++ 63 :: strBytes "per_page=" := by decide
        simp [gistsApiUrl, hlit2, List.append_assoc]
      have hab2 : a ++ 63 :: (strBytes "since=" ++ b) =
          (strBytes "https://api.github.com/users/" ++ u ++ strBytes "/gists") ++
          63 :: (strBytes "per_page=" ++ natBytes l) := by
        rw [← hurl, hab, hpat]
        simp [List.append_assoc]
      have hnotin : (63 : Nat) ∉
          strBytes "https://api.github.com/users/" ++ u ++ strBytes "/gists" := by
        intro h
        simp only [List.mem_append] at h
        rcases h with (h1 | h2) | h3
        · revert h1
          decide
        · have := husername 63 h2
          omega
        · revert h3
          decide
      rcases occurrence_split _ _ _ _ hab2 hnotin with ⟨_, hrr⟩ | hmem
      · rw [show strBytes "since=" = 115 :: strBytes "ince=" from by decide,
           show strBytes "per_page=" = 112 :: strBytes "er_page=" from by decide]
          at hrr
        simp only [List.cons_append, List.cons.injEq] at hrr
        omega
      · rcases List.mem_append.mp hmem with h1 | h2
        · revert h1
          decide
        · have := natBytes_digits l 63 h2
          omega

/-- Witness for C8 at the username of the page shell and the limit the
component passes. -/
theorem url_per_page_no_since_witness :
    validUsername (strBytes "deadflowers") = true ∧ 1 ≤ 100 ∧ 100 ≤ 100 ∧
    (containsSub (gistsApiUrl (strBytes "deadflowers") 100 none)
        (strBytes "per_page=" ++ natBytes 100) = true ∧
     containsSub (gistsApiUrl (strBytes "deadflowers") 100 none)
        (strBytes "&since=") = false ∧
     containsSub (gistsApiUrl (strBytes "deadflowers") 100 none)
        (strBytes "?since=") = false) :=
  ⟨by decide, by decide, by decide,
    url_per_page_no_since (strBytes "deadflowers") 100
      (by decide) (by decide) (by decide)⟩

end GistViewer
